import Mathlib

/-!
Verification of the sugarzero context-propagated logging library.

The development shallowly embeds the Go sources of the repository
(package sugarzero: the README's current iteration, files part_001 and
package_funcs.go).  Pure functions become Lean functions; the mutable
process state (the handle store, the process-wide fallback slot, the
one-time configuration guard, and the ordered record sink) is threaded
explicitly through a LogState value.  The zerolog backend is out of
scope per the specification and is modelled only through its documented
observable contract: WithLevel's level gate, the uppercase level field,
and the fmt-package rendering of messages.
-/

namespace Sugarzero

/-- Go dynamic values (interface values, `any`) as they flow through the
logging API: strings, integers, booleans, and the nil interface. -/
inductive GoVal where
  | str (s : String)
  | int (n : Int)
  | boolean (b : Bool)
  | null
  deriving DecidableEq

/-- Whether a Go type assertion `.(string)` succeeds on the value. -/
def GoVal.isStr : GoVal → Bool
  | .str _ => true
  | _ => false

/-- zerolog severity levels.  The numeric codes follow zerolog:
trace is -1, debug 0, info 1, warn 2, error 3, fatal 4, panicL 5,
noLevel 6, disabled 7. -/
inductive Level where
  | trace
  | debug
  | info
  | warn
  | error
  | fatal
  | panicL
  | noLevel
  | disabled
  deriving DecidableEq

/-- The numeric code of a zerolog level. -/
def Level.code : Level → Int
  | .trace => -1
  | .debug => 0
  | .info => 1
  | .warn => 2
  | .error => 3
  | .fatal => 4
  | .panicL => 5
  | .noLevel => 6
  | .disabled => 7

/-- zerolog's textual name of a level (Level.String). -/
def Level.string : Level → String
  | .trace => "trace"
  | .debug => "debug"
  | .info => "info"
  | .warn => "warn"
  | .error => "error"
  | .fatal => "fatal"
  | .panicL => "panic"
  | .noLevel => ""
  | .disabled => "disabled"

/-- strings.ToUpper and strings.ToLower as character-wise maps (the
level names are ASCII). -/
def stringToUpper (s : String) : String := ⟨s.data.map Char.toUpper⟩

def stringToLower (s : String) : String := ⟨s.data.map Char.toLower⟩

/-- Errors surfaced by the package: the invalid-level parse error
(carrying the offending text) and the defensive initialization error. -/
inductive GoError where
  | invalidLevel (text : String)
  | notInitialized
  deriving DecidableEq

/-- zerolog.ParseLevel restricted to the documented level-name set (the
specification's known set; zerolog's additional numeric-string branch is
out of scope and unused by this repository). -/
def zerologLevelOfName : String → Option Level
  | "trace" => some .trace
  | "debug" => some .debug
  | "info" => some .info
  | "warn" => some .warn
  | "error" => some .error
  | "fatal" => some .fatal
  | "panic" => some .panicL
  | "disabled" => some .disabled
  | _ => none

/-- parseLevel from part_001: the empty string yields the documented
default info; otherwise the lower-cased text is matched against the
level-name set, and anything else is the invalid-level error naming the
original text. -/
def parseLevel (level : String) : Except GoError Level :=
  if level = "" then .ok .info
  else
    match zerologLevelOfName (stringToLower level) with
    | some lvl => .ok lvl
    | none => .error (.invalidLevel level)

deriving instance DecidableEq for Except

/-- The default zerolog global level (TraceLevel), never changed by this
repository. -/
def globalLevelCode : Int := -1

/-- Whether zerolog's Logger.WithLevel returns a live event: the
message level must not be disabled and must be at or above both the
logger's configured level and the package-global level. -/
def eventNonNil (loggerLevel msgLevel : Level) : Bool :=
  msgLevel != Level.disabled
    && decide (loggerLevel.code ≤ msgLevel.code)
    && decide (globalLevelCode ≤ msgLevel.code)

/-- A span as seen through the tracing collaborator's ambient lookup:
its recording flag and the canonical hex forms of its identifiers. -/
structure Span where
  recording : Bool
  traceId : String
  spanId : String
  deriving DecidableEq

/-- A context.Context restricted to the three keys this repository ever
reads: the logger slot, the fields slot, and the ambient span consulted
by the tracing bridge.  Logger handles are identified by their index in
the LogState handle store.  A nil context is Option.none at use sites. -/
structure Ctx where
  logger : Option Nat
  fields : Option (List GoVal)
  span : Option Span
  deriving DecidableEq

/-- context.Background(): the empty carrier. -/
def Ctx.background : Ctx := ⟨none, none, none⟩

/-- One structured record as observed on the sink: the marshalled
(upper-cased) level field, the rendered message, and the ordered list of
attached key-value fields as zerolog encodes them. -/
structure Record where
  level : String
  message : String
  fields : List (String × GoVal)
  deriving DecidableEq

/-- What a JSON consumer of the record sees for a field key: the last
occurrence of the key wins when zerolog emitted duplicates. -/
def Record.fieldValue (r : Record) (k : String) : Option GoVal :=
  (r.fields.reverse.find? (fun p => p.1 == k)).map (·.2)

/-- The mutable process state: the handle store (a handle is its index,
holding its current level), the process-wide fallback slot
(globalLogger), the sync.Once configuration guard, and the sink's
record list in emission order. -/
structure LogState where
  handles : List Level
  global : Option Nat
  onceDone : Bool
  sink : List Record
  deriving DecidableEq

/-- flattenedFieldsFromContext: the flat alternating key-value list
attached to the carrier, or empty when the carrier is nil, the slot is
unset, or the stored slice is empty. -/
def flattenedFieldsFromContext (ctx : Option Ctx) : List GoVal :=
  match ctx with
  | none => []
  | some c =>
    match c.fields with
    | some l => if l.length > 0 then l else []
    | none => []

/-- loggerFromContextValue: the handle attached to the carrier, if any. -/
def loggerFromContextValue (ctx : Option Ctx) : Option Nat :=
  match ctx with
  | none => none
  | some c => c.logger

/-- The filtering loop of WithFields: walk the (already even-length)
key-value list two at a time, keeping a pair only when its key is a
non-empty string. -/
def keptPairs : List GoVal → List GoVal
  | k :: v :: rest =>
    match k with
    | .str s => if s = "" then keptPairs rest else .str s :: v :: keptPairs rest
    | _ => keptPairs rest
  | _ => []

/-- WithFields from part_001: nil becomes Background; an empty batch is
returned unchanged; an odd batch loses its last element; pairs with
non-string or empty keys are dropped; an empty kept list returns the
input carrier unchanged; otherwise a derived carrier stores the existing
entries followed by the kept pairs. -/
def WithFields (ctx : Option Ctx) (keyvals : List GoVal) : Ctx :=
  let c := ctx.getD Ctx.background
  if keyvals.length = 0 then c
  else
    let kv := if keyvals.length % 2 ≠ 0 then keyvals.dropLast else keyvals
    let flat := keptPairs kv
    if flat.length = 0 then c
    else { c with fields := some (flattenedFieldsFromContext (some c) ++ flat) }

/-- WithField: the one-pair case; an empty key returns the input
carrier (even a nil one) unchanged. -/
def WithField (ctx : Option Ctx) (key : String) (value : GoVal) : Option Ctx :=
  if key = "" then ctx
  else some (WithFields ctx [.str key, value])

/-- How Go map assignment m[k] = v acts on the model's association
list: overwrite the existing entry in place, else append. -/
def goMapInsert (m : List (String × GoVal)) (k : String) (v : GoVal) :
    List (String × GoVal) :=
  if m.any (fun p => p.1 == k) then
    m.map (fun p => if p.1 == k then (k, v) else p)
  else m ++ [(k, v)]

/-- Lookup in the model of a Go map. -/
def goMapGet (m : List (String × GoVal)) (k : String) : Option GoVal :=
  (m.find? (fun p => p.1 == k)).map (·.2)

/-- Go type assertion key, _ := v.(string): the string, or the zero
value for a non-string. -/
def goKeyStr : GoVal → String
  | .str s => s
  | _ => ""

/-- The map-building loop of FieldsFromContext: for i, i+1 pairs of the
flat list (stopping when fewer than two elements remain), assign
m[key] = value in order, so later entries overwrite earlier ones. -/
def buildMapAux (m : List (String × GoVal)) : List GoVal → List (String × GoVal)
  | k :: v :: rest => buildMapAux (goMapInsert m (goKeyStr k) v) rest
  | _ => m

/-- FieldsFromContext: flatten the accumulator to a key-value map;
absent (none) when no fields are attached. -/
def FieldsFromContext (ctx : Option Ctx) : Option (List (String × GoVal)) :=
  let flat := flattenedFieldsFromContext ctx
  if flat.length = 0 then none
  else some (buildMapAux [] flat)

/-- The default text rendering of a Go value (the v verb). -/
def goVDefault : GoVal → String
  | .str s => s
  | .int n => toString n
  | .boolean b => if b then "true" else "false"
  | .null => "<nil>"

/-- fmt.Sprint: operands are concatenated in their default formats,
with a space added between two operands only when neither is a string. -/
def goSprint : List GoVal → String
  | [] => ""
  | [a] => goVDefault a
  | a :: b :: rest =>
    goVDefault a ++ (if a.isStr || b.isStr then "" else " ") ++ goSprint (b :: rest)

/-- The character-level loop of the Sprintf model. -/
def sprintfAux : List Char → List GoVal → String
  | [], _ => ""
  | ['%'], _ => "%!(NOVERB)"
  | '%' :: c :: rest, args =>
    if c = '%' then "%" ++ sprintfAux rest args
    else if c = 'v' || c = 's' || c = 'd' then
      match args with
      | a :: more => goVDefault a ++ sprintfAux rest more
      | [] => "%!" ++ String.singleton c ++ "(MISSING)" ++ sprintfAux rest []
    else "%" ++ String.singleton c ++ sprintfAux rest args
  | c :: rest, args => String.singleton c ++ sprintfAux rest args

/-- fmt.Sprintf restricted to the verbs this repository uses (v, s, d
and literal text); the format string is substituted against the
arguments in order. -/
def goSprintf (format : String) (args : List GoVal) : String :=
  sprintfAux format.data args

/-- zerolog's Event.Fields on a flat []any list: an odd trailing
element is dropped, then each pair whose key is a string (possibly
empty at this layer) is appended to the event. -/
def fieldPairsAux : List GoVal → List (String × GoVal)
  | k :: v :: rest =>
    match k with
    | .str s => (s, v) :: fieldPairsAux rest
    | _ => fieldPairsAux rest
  | _ => []

/-- The slice-parity adjustment zerolog (and WithFields) applies. -/
def oddAdjust (l : List GoVal) : List GoVal :=
  if l.length % 2 = 1 then l.dropLast else l

/-- The key-value pairs a flat list contributes to an emitted event. -/
def eventFieldPairs (l : List GoVal) : List (String × GoVal) :=
  fieldPairsAux (oddAdjust l)

/-- The marshalled level field: LevelFieldMarshalFunc upper-cases the
level name. -/
def levelFieldText (l : Level) : String := stringToUpper (Level.string l)

/-- Message rendering of the args style in writeArgs: no arguments give
the empty message, a single argument is rendered with the v verb, and
several arguments go through fmt.Sprint. -/
def renderArgs : List GoVal → String
  | [] => ""
  | [a] => goSprintf "%v" [a]
  | args => goSprint args

/-- ZeroLogger.writeArgs: read the handle's logger snapshot under the
read lock, gate on the level (a nil event returns before the fields are
read or the arguments rendered), then emit one record carrying the
upper-cased level, the rendered message, and the carrier's flattened
fields. -/
def ZeroLogger.writeArgs (st : LogState) (h : Nat) (ctx : Option Ctx)
    (level : Level) (args : List GoVal) : LogState :=
  match st.handles[h]? with
  | none => st
  | some cur =>
    if eventNonNil cur level then
      { st with
        sink := st.sink ++
          [{ level := levelFieldText level
             message := renderArgs args
             fields := eventFieldPairs (flattenedFieldsFromContext ctx) }] }
    else st

/-- ZeroLogger.writef: as writeArgs, but the message is the printf
substitution of the format string against the arguments. -/
def ZeroLogger.writef (st : LogState) (h : Nat) (ctx : Option Ctx)
    (level : Level) (format : String) (args : List GoVal) : LogState :=
  match st.handles[h]? with
  | none => st
  | some cur =>
    if eventNonNil cur level then
      { st with
        sink := st.sink ++
          [{ level := levelFieldText level
             message := goSprintf format args
             fields := eventFieldPairs (flattenedFieldsFromContext ctx) }] }
    else st

def ZeroLogger.Debug (st : LogState) (h : Nat) (ctx : Option Ctx) (args : List GoVal) : LogState :=
  ZeroLogger.writeArgs st h ctx .debug args

def ZeroLogger.Debugf (st : LogState) (h : Nat) (ctx : Option Ctx) (format : String) (args : List GoVal) : LogState :=
  ZeroLogger.writef st h ctx .debug format args

def ZeroLogger.Debugln (st : LogState) (h : Nat) (ctx : Option Ctx) (args : List GoVal) : LogState :=
  ZeroLogger.writeArgs st h ctx .debug args

def ZeroLogger.Info (st : LogState) (h : Nat) (ctx : Option Ctx) (args : List GoVal) : LogState :=
  ZeroLogger.writeArgs st h ctx .info args

def ZeroLogger.Infof (st : LogState) (h : Nat) (ctx : Option Ctx) (format : String) (args : List GoVal) : LogState :=
  ZeroLogger.writef st h ctx .info format args

def ZeroLogger.Infoln (st : LogState) (h : Nat) (ctx : Option Ctx) (args : List GoVal) : LogState :=
  ZeroLogger.writeArgs st h ctx .info args

def ZeroLogger.Warn (st : LogState) (h : Nat) (ctx : Option Ctx) (args : List GoVal) : LogState :=
  ZeroLogger.writeArgs st h ctx .warn args

def ZeroLogger.Warnf (st : LogState) (h : Nat) (ctx : Option Ctx) (format : String) (args : List GoVal) : LogState :=
  ZeroLogger.writef st h ctx .warn format args

def ZeroLogger.Warnln (st : LogState) (h : Nat) (ctx : Option Ctx) (args : List GoVal) : LogState :=
  ZeroLogger.writeArgs st h ctx .warn args

def ZeroLogger.Error (st : LogState) (h : Nat) (ctx : Option Ctx) (args : List GoVal) : LogState :=
  ZeroLogger.writeArgs st h ctx .error args

def ZeroLogger.Errorf (st : LogState) (h : Nat) (ctx : Option Ctx) (format : String) (args : List GoVal) : LogState :=
  ZeroLogger.writef st h ctx .error format args

def ZeroLogger.Errorln (st : LogState) (h : Nat) (ctx : Option Ctx) (args : List GoVal) : LogState :=
  ZeroLogger.writeArgs st h ctx .error args

def ZeroLogger.Fatal (st : LogState) (h : Nat) (ctx : Option Ctx) (args : List GoVal) : LogState :=
  ZeroLogger.writeArgs st h ctx .fatal args

def ZeroLogger.Fatalf (st : LogState) (h : Nat) (ctx : Option Ctx) (format : String) (args : List GoVal) : LogState :=
  ZeroLogger.writef st h ctx .fatal format args

def ZeroLogger.Fatalln (st : LogState) (h : Nat) (ctx : Option Ctx) (args : List GoVal) : LogState :=
  ZeroLogger.writeArgs st h ctx .fatal args

/-- ZeroLogger.SetLogLevel (sugarzero iteration): parse failures are
returned to the caller and the state is untouched; on success both the
stored level and the zerolog logger level are updated together under
the write lock. -/
def ZeroLogger.SetLogLevel (st : LogState) (h : Nat) (level : String) :
    LogState × Option GoError :=
  match parseLevel level with
  | .error e => (st, some e)
  | .ok lvl => ({ st with handles := st.handles.set h lvl }, none)

/-- ZeroLogger.GetLogLevel: the textual name of the handle's current
level, read under the read lock (none models a dangling handle, which
no reachable state produces). -/
def ZeroLogger.GetLogLevel (st : LogState) (h : Nat) : Option String :=
  (st.handles[h]?).map Level.string

/-- The fixed fallback warning text. -/
def missingLoggerMessage : String :=
  "context does not contain a logger, using fallback logger"

/-- ZeroLogger.logMissingLoggerWarning: a warn-level event with the
fixed message and no fields, subject to the same level gate as any
other write. -/
def ZeroLogger.logMissingLoggerWarning (st : LogState) (h : Nat) : LogState :=
  match st.handles[h]? with
  | none => st
  | some cur =>
    if eventNonNil cur Level.warn then
      { st with
        sink := st.sink ++
          [{ level := levelFieldText Level.warn
             message := missingLoggerMessage
             fields := [] }] }
    else st

/-- withLogger from package_funcs.go: normalize a nil carrier to
Background, prefer the carrier's own handle, else fall back to the
process-wide handle (warning first, and handing fn a derived carrier
that now carries the fallback handle), else do nothing. -/
def withLogger (st : LogState) (ctx : Option Ctx)
    (fn : LogState → Nat → Option Ctx → LogState) : LogState :=
  let c := ctx.getD Ctx.background
  match c.logger with
  | some h => fn st h (some c)
  | none =>
    match st.global with
    | some g =>
      fn (ZeroLogger.logMissingLoggerWarning st g) g (some { c with logger := some g })
    | none => st

def Debug (st : LogState) (ctx : Option Ctx) (args : List GoVal) : LogState :=
  withLogger st ctx (fun s h c => ZeroLogger.Debug s h c args)

def Debugf (st : LogState) (ctx : Option Ctx) (format : String) (args : List GoVal) : LogState :=
  withLogger st ctx (fun s h c => ZeroLogger.Debugf s h c format args)

def Debugln (st : LogState) (ctx : Option Ctx) (args : List GoVal) : LogState :=
  withLogger st ctx (fun s h c => ZeroLogger.Debugln s h c args)

def Info (st : LogState) (ctx : Option Ctx) (args : List GoVal) : LogState :=
  withLogger st ctx (fun s h c => ZeroLogger.Info s h c args)

def Infof (st : LogState) (ctx : Option Ctx) (format : String) (args : List GoVal) : LogState :=
  withLogger st ctx (fun s h c => ZeroLogger.Infof s h c format args)

def Infoln (st : LogState) (ctx : Option Ctx) (args : List GoVal) : LogState :=
  withLogger st ctx (fun s h c => ZeroLogger.Infoln s h c args)

def Warn (st : LogState) (ctx : Option Ctx) (args : List GoVal) : LogState :=
  withLogger st ctx (fun s h c => ZeroLogger.Warn s h c args)

def Warnf (st : LogState) (ctx : Option Ctx) (format : String) (args : List GoVal) : LogState :=
  withLogger st ctx (fun s h c => ZeroLogger.Warnf s h c format args)

def Warnln (st : LogState) (ctx : Option Ctx) (args : List GoVal) : LogState :=
  withLogger st ctx (fun s h c => ZeroLogger.Warnln s h c args)

def Error (st : LogState) (ctx : Option Ctx) (args : List GoVal) : LogState :=
  withLogger st ctx (fun s h c => ZeroLogger.Error s h c args)

def Errorf (st : LogState) (ctx : Option Ctx) (format : String) (args : List GoVal) : LogState :=
  withLogger st ctx (fun s h c => ZeroLogger.Errorf s h c format args)

def Errorln (st : LogState) (ctx : Option Ctx) (args : List GoVal) : LogState :=
  withLogger st ctx (fun s h c => ZeroLogger.Errorln s h c args)

def Fatal (st : LogState) (ctx : Option Ctx) (args : List GoVal) : LogState :=
  withLogger st ctx (fun s h c => ZeroLogger.Fatal s h c args)

def Fatalf (st : LogState) (ctx : Option Ctx) (format : String) (args : List GoVal) : LogState :=
  withLogger st ctx (fun s h c => ZeroLogger.Fatalf s h c format args)

def Fatalln (st : LogState) (ctx : Option Ctx) (args : List GoVal) : LogState :=
  withLogger st ctx (fun s h c => ZeroLogger.Fatalln s h c args)

/-- Package-level SetLogLevel from package_funcs.go: resolve the handle
(carrier first, then the process-wide fallback, else a no-op) and call
its SetLogLevel; the Go signature returns nothing, so the parse error
the handle reports is discarded here. -/
def SetLogLevel (st : LogState) (ctx : Option Ctx) (level : String) : LogState :=
  match loggerFromContextValue ctx with
  | some h => (ZeroLogger.SetLogLevel st h level).1
  | none =>
    match st.global with
    | some g => (ZeroLogger.SetLogLevel st g level).1
    | none => st

/-- Package-level GetLogLevel: the same resolution order, returning the
empty string when no handle is reachable. -/
def GetLogLevel (st : LogState) (ctx : Option Ctx) : String :=
  match loggerFromContextValue ctx with
  | some h => (ZeroLogger.GetLogLevel st h).getD ""
  | none =>
    match st.global with
    | some g => (ZeroLogger.GetLogLevel st g).getD ""
    | none => ""

/-- New from part_001: normalize a nil parent to Background; if the
process-wide handle exists, attach it and return with no error,
ignoring the requested level (and sinks, which are out of scope); else
parse the level and propagate its error with the state untouched; else
construct the handle under the once guard, store it process-wide, and
attach it.  The defensive branch surfaces notInitialized if the slot is
still empty afterwards. -/
def New (st : LogState) (ctx : Option Ctx) (level : String) :
    LogState × Ctx × Option GoError :=
  let c := ctx.getD Ctx.background
  match st.global with
  | some g => (st, { c with logger := some g }, none)
  | none =>
    match parseLevel level with
    | .error e => (st, c, some e)
    | .ok lvl =>
      let st1 :=
        if st.onceDone then st
        else
          { st with
            handles := st.handles ++ [lvl]
            global := some st.handles.length
            onceDone := true }
      match st1.global with
      | none => (st1, c, some .notInitialized)
      | some g => (st1, { c with logger := some g }, none)

/-- Reset: clears the process-wide slot and the once guard
(test-only). -/
def Reset (st : LogState) : LogState :=
  { st with global := none, onceDone := false }

/-- Modelled from the spec: the repository's WithTracing source file is
not under src (only its README, test and example callers are).  Spec
section 4.6: inspect the carrier's ambient span; if one is present and
currently recording, fold its trace and span identifiers into the field
accumulator as trace_id and span_id (non-destructive append,
last-write-wins); if no span is present or it is not recording, return
the carrier unchanged with no error. -/
def WithTracing (ctx : Option Ctx) : Option Ctx :=
  match ctx with
  | none => ctx
  | some c =>
    match c.span with
    | some sp =>
      if sp.recording then
        some (WithFields (some c)
          [.str "trace_id", .str sp.traceId, .str "span_id", .str sp.spanId])
      else ctx
    | none => ctx

/-- Spec-side description of the kept pairs of a batch, following the
claims' wording: drop the last element of an odd batch, chunk into
pairs, keep the pairs whose key is a non-empty string, and flatten
back. -/
def pairChunks : List GoVal → List (GoVal × GoVal)
  | a :: b :: rest => (a, b) :: pairChunks rest
  | _ => []

def specKept (keyvals : List GoVal) : List GoVal :=
  let kv := if keyvals.length % 2 = 1 then keyvals.dropLast else keyvals
  ((pairChunks kv).filter
      (fun p => match p.1 with | .str s => !(s == "") | _ => false)).flatMap
    (fun p => [p.1, p.2])

/-- Spec-side last-write-wins lookup over a flat key-value list: a
later pair with the key shadows any earlier one. -/
def lastWrite : List GoVal → String → Option GoVal
  | k0 :: v0 :: rest, k =>
    match lastWrite rest k with
    | some v => some v
    | none => if goKeyStr k0 = k then some v0 else none
  | _, _ => none

end Sugarzero

namespace Sugarzero

/-- Two-at-a-time induction on lists, matching the shape of the
key-value loops. -/
theorem twoStepInduction {motive : List GoVal → Prop} (h0 : motive [])
    (h1 : ∀ a, motive [a])
    (h2 : ∀ a b l, motive l → motive (a :: b :: l)) : ∀ l, motive l
  | [] => h0
  | [a] => h1 a
  | a :: b :: l => h2 a b l (twoStepInduction h0 h1 h2 l)

theorem keptPairs_append (l₁ l₂ : List GoVal) (h : l₁.length % 2 = 0) :
    keptPairs (l₁ ++ l₂) = keptPairs l₁ ++ keptPairs l₂ := by
  induction l₁ using twoStepInduction with
  | h0 => simp [keptPairs]
  | h1 a => simp at h
  | h2 a b l ih =>
    have hl : l.length % 2 = 0 := by
      simp [List.length_cons] at h
      omega
    cases a with
    | str s =>
      by_cases hs : s = "" <;> simp [keptPairs, hs, ih hl]
    | int n => simp [keptPairs, ih hl]
    | boolean bo => simp [keptPairs, ih hl]
    | null => simp [keptPairs, ih hl]

theorem keptPairs_eq_filter_chunks (l : List GoVal) :
    keptPairs l =
      ((pairChunks l).filter
          (fun p => match p.1 with | .str s => !(s == "") | _ => false)).flatMap
        (fun p => [p.1, p.2]) := by
  induction l using twoStepInduction with
  | h0 => simp [keptPairs, pairChunks]
  | h1 a => simp [keptPairs, pairChunks]
  | h2 a b l ih =>
    cases a with
    | str s =>
      by_cases hs : s = "" <;>
        simp [keptPairs, pairChunks, List.filter_cons, hs, ih]
    | int n => simp [keptPairs, pairChunks, List.filter_cons, ih]
    | boolean bo => simp [keptPairs, pairChunks, List.filter_cons, ih]
    | null => simp [keptPairs, pairChunks, List.filter_cons, ih]

theorem oddAdjust_append_even (l₁ l₂ : List GoVal) (h : l₁.length % 2 = 0) :
    oddAdjust (l₁ ++ l₂) = l₁ ++ oddAdjust l₂ := by
  rcases List.eq_nil_or_concat l₂ with rfl | ⟨l₂', x, rfl⟩
  · simp [oddAdjust, h]
  · simp only [List.concat_eq_append]
    have hpar : (l₁ ++ (l₂' ++ [x])).length % 2 = (l₂' ++ [x]).length % 2 := by
      simp only [List.length_append]
      omega
    by_cases hp : (l₂' ++ [x]).length % 2 = 1
    · rw [oddAdjust, oddAdjust, if_pos (by rw [hpar]; exact hp), if_pos hp,
        ← List.append_assoc, List.dropLast_concat, List.dropLast_concat]
    · rw [oddAdjust, oddAdjust, if_neg (by rw [hpar]; exact hp), if_neg hp]

end Sugarzero

namespace Sugarzero

theorem goMapGet_nil (k : String) : goMapGet [] k = none := rfl

theorem goMapGet_cons (p : String × GoVal) (l : List (String × GoVal))
    (k : String) :
    goMapGet (p :: l) k = if p.1 = k then some p.2 else goMapGet l k := by
  by_cases h : p.1 = k
  · rw [goMapGet, List.find?_cons_of_pos _ (by simp [h]), if_pos h]
    rfl
  · rw [goMapGet, List.find?_cons_of_neg _ (by simp [h]), if_neg h]
    rfl

theorem find?_map_keep (rest : List (String × GoVal)) (k k' : String)
    (v : GoVal) (hne : k ≠ k') :
    (rest.map (fun p => if p.1 == k then (k, v) else p)).find?
        (fun p => p.1 == k') =
      rest.find? (fun p => p.1 == k') := by
  induction rest with
  | nil => rfl
  | cons q rest ih =>
    simp only [List.map_cons]
    by_cases hq : q.1 = k
    · have hfq : (if q.1 == k then (k, v) else q) = (k, v) := by simp [hq]
      rw [hfq, List.find?_cons_of_neg _ (by simp [hne]),
        List.find?_cons_of_neg _ (by simp [hq, hne]), ih]
    · have hfq : (if q.1 == k then (k, v) else q) = q := by simp [hq]
      rw [hfq]
      by_cases hq' : q.1 = k'
      · rw [List.find?_cons_of_pos _ (by simp [hq']),
          List.find?_cons_of_pos _ (by simp [hq'])]
      · rw [List.find?_cons_of_neg _ (by simp [hq']),
          List.find?_cons_of_neg _ (by simp [hq']), ih]

theorem goMapGet_overwrite (m : List (String × GoVal)) (k : String) (v : GoVal)
    (k' : String) (hany : m.any (fun p => p.1 == k) = true) :
    goMapGet (m.map (fun p => if p.1 == k then (k, v) else p)) k' =
      if k = k' then some v else goMapGet m k' := by
  induction m with
  | nil => simp at hany
  | cons p rest ih =>
    simp only [List.map_cons]
    by_cases hpk : p.1 = k
    · have hfq : (if p.1 == k then (k, v) else p) = (k, v) := by simp [hpk]
      rw [hfq, goMapGet_cons, goMapGet_cons]
      by_cases hkk : k = k'
      · rw [if_pos hkk, if_pos hkk]
      · rw [if_neg hkk, if_neg hkk, if_neg (fun he => hkk (hpk ▸ he)), goMapGet,
          goMapGet, find?_map_keep rest k k' v hkk]
    · have hfq : (if p.1 == k then (k, v) else p) = p := by simp [hpk]
      have hrest : rest.any (fun p => p.1 == k) = true := by
        simp only [List.any_cons, Bool.or_eq_true, beq_iff_eq] at hany
        rcases hany with h | h
        · exact absurd h hpk
        · exact h
      rw [hfq, goMapGet_cons, goMapGet_cons]
      by_cases hq' : p.1 = k'
      · have hkk : k ≠ k' := fun he => hpk (by rw [he, hq'])
        rw [if_pos hq', if_neg hkk, if_pos hq']
      · rw [if_neg hq', if_neg hq', ih hrest]

theorem goMapGet_append_fresh (m : List (String × GoVal)) (k : String)
    (v : GoVal) (k' : String) (hnone : m.any (fun p => p.1 == k) = false) :
    goMapGet (m ++ [(k, v)]) k' = if k = k' then some v else goMapGet m k' := by
  induction m with
  | nil =>
    rw [List.nil_append, goMapGet_cons]
  | cons p rest ih =>
    have hpk : ¬(p.1 = k) := by
      intro he
      simp [List.any_cons, he] at hnone
    have hrest : rest.any (fun p => p.1 == k) = false := by
      simp only [List.any_cons, Bool.or_eq_false_iff] at hnone
      exact hnone.2
    rw [List.cons_append, goMapGet_cons, goMapGet_cons]
    by_cases hq' : p.1 = k'
    · have hkk : k ≠ k' := fun he => hpk (by rw [he, hq'])
      rw [if_pos hq', if_neg hkk, if_pos hq']
    · rw [if_neg hq', if_neg hq', ih hrest]

theorem goMapGet_insert (m : List (String × GoVal)) (k : String) (v : GoVal)
    (k' : String) :
    goMapGet (goMapInsert m k v) k' = if k = k' then some v else goMapGet m k' := by
  unfold goMapInsert
  cases hany : m.any (fun p => p.1 == k) with
  | true =>
    simp only [hany, if_true]
    exact goMapGet_overwrite m k v k' hany
  | false =>
    simp only [hany, Bool.false_eq_true, if_false]
    exact goMapGet_append_fresh m k v k' hany

theorem goMapGet_buildMapAux (flat : List GoVal) :
    ∀ m k, goMapGet (buildMapAux m flat) k =
      match lastWrite flat k with
      | some v => some v
      | none => goMapGet m k := by
  induction flat using twoStepInduction with
  | h0 => intro m k; simp [buildMapAux, lastWrite]
  | h1 a => intro m k; simp [buildMapAux, lastWrite]
  | h2 a b rest ih =>
    intro m k
    simp only [buildMapAux, lastWrite]
    rw [ih]
    cases hlw : lastWrite rest k with
    | some v => simp
    | none =>
      rw [goMapGet_insert]
      by_cases hak : goKeyStr a = k <;> simp [hak]

end Sugarzero

namespace Sugarzero

theorem specKept_eq (keyvals : List GoVal) :
    specKept keyvals = keptPairs (oddAdjust keyvals) := by
  rw [specKept, oddAdjust, keptPairs_eq_filter_chunks]

theorem withFields_eq (c : Ctx) (keyvals : List GoVal) :
    WithFields (some c) keyvals =
      if keptPairs (oddAdjust keyvals) = [] then c
      else
        { c with
          fields := some (flattenedFieldsFromContext (some c) ++
            keptPairs (oddAdjust keyvals)) } := by
  unfold WithFields
  by_cases hB : keyvals.length = 0
  · have : keyvals = [] := List.length_eq_zero.mp hB
    subst this
    simp [oddAdjust, keptPairs]
  · simp only [Option.getD_some, hB, if_false]
    have hiff : (¬keyvals.length % 2 = 0) ↔ keyvals.length % 2 = 1 := by omega
    by_cases hp : keyvals.length % 2 = 1
    · rw [if_pos (hiff.mpr hp), oddAdjust, if_pos hp]
      by_cases hflat : keptPairs keyvals.dropLast = []
      · rw [if_pos (by simp [hflat]), if_pos hflat]
      · rw [if_neg (by simp [hflat]), if_neg hflat]
    · rw [if_neg (fun hne => hp (hiff.mp hne)), oddAdjust, if_neg hp]
      by_cases hflat : keptPairs keyvals = []
      · rw [if_pos (by simp [hflat]), if_pos hflat]
      · rw [if_neg (by simp [hflat]), if_neg hflat]

theorem withFields_flattened (c : Ctx) (keyvals : List GoVal) :
    flattenedFieldsFromContext (some (WithFields (some c) keyvals)) =
      flattenedFieldsFromContext (some c) ++ keptPairs (oddAdjust keyvals) := by
  rw [withFields_eq]
  by_cases hflat : keptPairs (oddAdjust keyvals) = []
  · rw [if_pos hflat, hflat, List.append_nil]
  · rw [if_neg hflat]
    show (match some (flattenedFieldsFromContext (some c) ++
        keptPairs (oddAdjust keyvals)) with
      | some l => if l.length > 0 then l else []
      | none => []) = _
    have : (flattenedFieldsFromContext (some c) ++
        keptPairs (oddAdjust keyvals)).length > 0 := by
      have := List.length_pos.mpr hflat
      simp [List.length_append]
      omega
    simp [this]

theorem withFields_logger (c : Ctx) (keyvals : List GoVal) :
    (WithFields (some c) keyvals).logger = c.logger := by
  rw [withFields_eq]
  by_cases hflat : keptPairs (oddAdjust keyvals) = []
  · rw [if_pos hflat]
  · rw [if_neg hflat]

theorem withFields_span (c : Ctx) (keyvals : List GoVal) :
    (WithFields (some c) keyvals).span = c.span := by
  rw [withFields_eq]
  by_cases hflat : keptPairs (oddAdjust keyvals) = []
  · rw [if_pos hflat]
  · rw [if_neg hflat]

theorem eventNonNil_iff (cur lvl : Level)
    (hl : lvl = .debug ∨ lvl = .info ∨ lvl = .warn ∨ lvl = .error ∨ lvl = .fatal) :
    eventNonNil cur lvl = true ↔ cur.code ≤ lvl.code := by
  rcases hl with rfl | rfl | rfl | rfl | rfl <;>
    simp [eventNonNil, globalLevelCode, Level.code]

end Sugarzero

namespace Sugarzero

/-- C1: Level gating.  For every handle and write operation, a message
whose severity is strictly below the handle's current level produces no
record and leaves the state untouched (the gate fires before the
arguments are rendered or the fields read, mirroring the source order),
while a severity at or above the level appends exactly one record whose
level field is the upper-cased severity name. -/
theorem c1_level_gating (st : LogState) (h : Nat) (cur : Level)
    (ctx : Option Ctx) (lvl : Level) (args : List GoVal) (format : String)
    (hh : st.handles[h]? = some cur)
    (hl : lvl = .debug ∨ lvl = .info ∨ lvl = .warn ∨ lvl = .error ∨ lvl = .fatal) :
    (lvl.code < cur.code →
      ZeroLogger.writeArgs st h ctx lvl args = st ∧
      ZeroLogger.writef st h ctx lvl format args = st) ∧
    (cur.code ≤ lvl.code →
      (ZeroLogger.writeArgs st h ctx lvl args).sink =
        st.sink ++
          [⟨stringToUpper (Level.string lvl), renderArgs args,
            eventFieldPairs (flattenedFieldsFromContext ctx)⟩] ∧
      (ZeroLogger.writef st h ctx lvl format args).sink =
        st.sink ++
          [⟨stringToUpper (Level.string lvl), goSprintf format args,
            eventFieldPairs (flattenedFieldsFromContext ctx)⟩]) := by
  have hiff := eventNonNil_iff cur lvl hl
  constructor
  · intro hlt
    have hgate : eventNonNil cur lvl = false := by
      cases hgb : eventNonNil cur lvl
      · rfl
      · exact absurd (hiff.mp hgb) (by omega)
    constructor
    · simp [ZeroLogger.writeArgs, hh, hgate]
    · simp [ZeroLogger.writef, hh, hgate]
  · intro hle
    have hgate : eventNonNil cur lvl = true := hiff.mpr hle
    constructor
    · simp [ZeroLogger.writeArgs, hh, hgate, levelFieldText]
    · simp [ZeroLogger.writef, hh, hgate, levelFieldText]

/-- C1 witness: a handle at level error drops an info write entirely and
emits exactly one record with level ERROR for an error write. -/
theorem c1_level_gating_witness :
    ZeroLogger.writeArgs ⟨[.error], some 0, true, []⟩ 0 none .info [.str "x"] =
      ⟨[.error], some 0, true, []⟩ ∧
    (ZeroLogger.writeArgs ⟨[.error], some 0, true, []⟩ 0 none .error
        [.str "x"]).sink =
      [⟨"ERROR", "x", []⟩] := by
  constructor
  · exact ((c1_level_gating ⟨[.error], some 0, true, []⟩ 0 .error none .info
      [.str "x"] "" rfl (by decide)).1 (by decide)).1
  · exact (((c1_level_gating ⟨[.error], some 0, true, []⟩ 0 .error none .error
      [.str "x"] "" rfl (by decide)).2 (by decide)).1).trans (by decide)

/-- C3: the WithFields construction algorithm.  The kept pairs are the
batch with an odd tail dropped, chunked into pairs, and filtered to the
pairs whose key is a non-empty string; an empty kept list returns the
input carrier itself, and otherwise a new carrier holds the existing
entries followed by the kept pairs.  WithField is the one-pair case and
is the identity on an empty key. -/
theorem c3_withFields_construction (c : Ctx) (keyvals : List GoVal)
    (key : String) (v : GoVal) :
    (specKept keyvals = [] → WithFields (some c) keyvals = c) ∧
    (specKept keyvals ≠ [] →
      WithFields (some c) keyvals =
        { c with
          fields := some (flattenedFieldsFromContext (some c) ++
            specKept keyvals) }) ∧
    WithField (some c) "" v = some c ∧
    (key ≠ "" →
      WithField (some c) key v = some (WithFields (some c) [.str key, v])) := by
  refine ⟨?_, ?_, ?_, ?_⟩
  · intro hk
    rw [specKept_eq] at hk
    rw [withFields_eq, if_pos hk]
  · intro hk
    rw [specKept_eq] at hk
    rw [withFields_eq, if_neg hk, specKept_eq]
  · rw [WithField, if_pos rfl]
  · intro hk
    rw [WithField, if_neg hk]

/-- C3 witness: an odd batch keeps only its complete pair, and a
non-empty key routes WithField through WithFields. -/
theorem c3_withFields_construction_witness :
    WithFields (some Ctx.background)
        [GoVal.str "k1", GoVal.str "v1", GoVal.str "k2"] =
      { Ctx.background with
        fields := some (flattenedFieldsFromContext (some Ctx.background) ++
          specKept [GoVal.str "k1", GoVal.str "v1", GoVal.str "k2"]) } ∧
    WithField (some Ctx.background) "x" (GoVal.int 3) =
      some (WithFields (some Ctx.background) [GoVal.str "x", GoVal.int 3]) :=
  ⟨(c3_withFields_construction Ctx.background
      [GoVal.str "k1", GoVal.str "v1", GoVal.str "k2"] "x" (GoVal.int 3)).2.1
      (by decide),
   (c3_withFields_construction Ctx.background
      [GoVal.str "k1", GoVal.str "v1", GoVal.str "k2"] "x" (GoVal.int 3)).2.2.2
      (by decide)⟩

/-- C4 counterexample: with an odd first batch the claimed associativity
fails.  Chaining WithFields with the batches k and a,1 yields the field
map with key a, while the concatenated batch k,a,1 drops its last
element and yields the map with key k. -/
theorem c4_counterexample :
    FieldsFromContext
        (some (WithFields (some (WithFields (some Ctx.background)
          [.str "k"])) [.str "a", .str "1"])) ≠
      FieldsFromContext
        (some (WithFields (some Ctx.background)
          ([.str "k"] ++ [.str "a", .str "1"]))) := by decide

/-- C4 amended: accumulation is associative for an even-length first
batch (chaining two WithFields calls equals one call on the
concatenated batch, at the level of the flattened field map), and
accumulation is carrier-pure: the derived carrier only appends to the
input carrier's entries, which the derivation leaves intact. -/
theorem c4_assoc_even_and_pure (c : Ctx) (B1 B2 : List GoVal)
    (h : B1.length % 2 = 0) :
    FieldsFromContext (some (WithFields (some (WithFields (some c) B1)) B2)) =
      FieldsFromContext (some (WithFields (some c) (B1 ++ B2))) ∧
    (∃ tail, flattenedFieldsFromContext (some (WithFields (some c) B1)) =
      flattenedFieldsFromContext (some c) ++ tail) := by
  have hB1 : oddAdjust B1 = B1 := by
    rw [oddAdjust, if_neg (by omega)]
  have hflat :
      flattenedFieldsFromContext
          (some (WithFields (some (WithFields (some c) B1)) B2)) =
        flattenedFieldsFromContext (some (WithFields (some c) (B1 ++ B2))) := by
    rw [withFields_flattened, withFields_flattened, withFields_flattened,
      oddAdjust_append_even B1 B2 h, keptPairs_append B1 (oddAdjust B2) h, hB1,
      List.append_assoc]
  constructor
  · simp only [FieldsFromContext]
    rw [hflat]
  · exact ⟨keptPairs (oddAdjust B1), withFields_flattened c B1⟩

/-- C4 witness: the amended associativity and purity at concrete even
batches. -/
theorem c4_assoc_even_and_pure_witness :
    FieldsFromContext
        (some (WithFields (some (WithFields (some Ctx.background)
          [.str "a", .int 1])) [.str "b", .int 2])) =
      FieldsFromContext
        (some (WithFields (some Ctx.background)
          ([.str "a", .int 1] ++ [.str "b", .int 2]))) ∧
    (∃ tail,
      flattenedFieldsFromContext
          (some (WithFields (some Ctx.background) [.str "a", .int 1])) =
        flattenedFieldsFromContext (some Ctx.background) ++ tail) :=
  c4_assoc_even_and_pure Ctx.background [.str "a", .int 1] [.str "b", .int 2]
    (by decide)

/-- C7: FieldsFromContext flattens the accumulator with last-write-wins
lookup, returns absent rather than an empty map when no fields are
attached, and on the duplicate-key example a,1 then a,2 yields the map
with a bound to 2. -/
theorem c7_fieldsAsMap (c : Ctx) (k : String) :
    (FieldsFromContext (some c) = none ↔
      flattenedFieldsFromContext (some c) = []) ∧
    (∀ m, FieldsFromContext (some c) = some m →
      goMapGet m k = lastWrite (flattenedFieldsFromContext (some c)) k) ∧
    FieldsFromContext
        (some (WithFields (WithField (some Ctx.background) "a" (.int 1))
          [.str "a", .int 2])) =
      some [("a", GoVal.int 2)] := by
  refine ⟨?_, ?_, by decide⟩
  · simp only [FieldsFromContext]
    by_cases hf : (flattenedFieldsFromContext (some c)).length = 0
    · rw [if_pos hf]
      simp [List.length_eq_zero.mp hf]
    · rw [if_neg hf]
      constructor
      · intro he
        cases he
      · intro he
        exact absurd (by rw [he]; rfl) hf
  · intro m hm
    simp only [FieldsFromContext] at hm
    by_cases hf : (flattenedFieldsFromContext (some c)).length = 0
    · rw [if_pos hf] at hm
      cases hm
    · rw [if_neg hf] at hm
      cases hm
      rw [goMapGet_buildMapAux]
      cases hlw : lastWrite (flattenedFieldsFromContext (some c)) k <;>
        simp [hlw, goMapGet_nil]

/-- C7 witness: the last-write-wins lookup at a concrete carrier with a
duplicated key. -/
theorem c7_fieldsAsMap_witness :
    goMapGet [("a", GoVal.int 2)] "a" =
      lastWrite
        (flattenedFieldsFromContext
          (some (WithFields (WithField (some Ctx.background) "a" (.int 1))
            [.str "a", .int 2]))) "a" :=
  (c7_fieldsAsMap
      (WithFields (WithField (some Ctx.background) "a" (.int 1))
        [.str "a", .int 2]) "a").2.1
    [("a", GoVal.int 2)] (by decide)

end Sugarzero

namespace Sugarzero

/-- C2 counterexample: the fallback warning is not unconditional.  With
the process-wide fallback handle at level error, a package-level info
dispatch through a carrier without a handle produces zero records: the
WARN warning record and the requested info record are both dropped by
the level gate, although a fallback handle exists. -/
theorem c2_counterexample :
    (⟨[.error], some 0, true, []⟩ : LogState).global = some 0 ∧
    (Info ⟨[.error], some 0, true, []⟩ none [.str "hi"]).sink = [] := by decide

/-- C2 amended: dispatch resolution.  A carrier-attached handle performs
the write directly with no warning; with no attached handle and a
process-wide fallback, the write is performed by the fallback handle on
a derived carrier that now carries it (so a subsequent dispatch through
that carrier resolves directly and cannot repeat the warning), and the
sink receives the WARN fallback-warning record first only if warn
passes the fallback's level gate, followed by the requested record
subject to its own gate; with no handle anywhere the dispatch is a
silent no-op. -/
theorem c2_dispatch_resolution (st : LogState) (ctx : Option Ctx)
    (fn : LogState → Nat → Option Ctx → LogState) (h g : Nat) (cur lvl : Level)
    (args : List GoVal) :
    ((ctx.getD Ctx.background).logger = some h →
      withLogger st ctx fn = fn st h (some (ctx.getD Ctx.background))) ∧
    ((ctx.getD Ctx.background).logger = none → st.global = some g →
      withLogger st ctx fn =
        fn (ZeroLogger.logMissingLoggerWarning st g) g
          (some { ctx.getD Ctx.background with logger := some g }) ∧
      { ctx.getD Ctx.background with logger := some g }.logger = some g) ∧
    ((ctx.getD Ctx.background).logger = none → st.global = none →
      withLogger st ctx fn = st) ∧
    ((ctx.getD Ctx.background).logger = none → st.global = some g →
      st.handles[g]? = some cur →
      (lvl = .debug ∨ lvl = .info ∨ lvl = .warn ∨ lvl = .error ∨ lvl = .fatal) →
      cur.code ≤ lvl.code →
      (withLogger st ctx
          (fun s hh cc => ZeroLogger.writeArgs s hh cc lvl args)).sink =
        st.sink ++
          (if cur.code ≤ Level.warn.code then
            [⟨levelFieldText Level.warn, missingLoggerMessage, []⟩]
          else ([] : List Record)) ++
          [⟨stringToUpper (Level.string lvl), renderArgs args,
            eventFieldPairs (flattenedFieldsFromContext
              (some (ctx.getD Ctx.background)))⟩]) := by
  refine ⟨?_, ?_, ?_, ?_⟩
  · intro hlog
    simp [withLogger, hlog]
  · intro hlog hg
    refine ⟨?_, rfl⟩
    simp [withLogger, hlog, hg]
  · intro hlog hg
    simp [withLogger, hlog, hg]
  · intro hlog hg hgl hl hle
    have hwl : withLogger st ctx
        (fun s hh cc => ZeroLogger.writeArgs s hh cc lvl args) =
        ZeroLogger.writeArgs (ZeroLogger.logMissingLoggerWarning st g) g
          (some { ctx.getD Ctx.background with logger := some g }) lvl args := by
      simp [withLogger, hlog, hg]
    rw [hwl]
    have hwarniff := eventNonNil_iff cur Level.warn (by simp)
    have hflat : flattenedFieldsFromContext
        (some { ctx.getD Ctx.background with logger := some g }) =
        flattenedFieldsFromContext (some (ctx.getD Ctx.background)) := rfl
    by_cases hwarn : cur.code ≤ Level.warn.code
    · have hw : eventNonNil cur Level.warn = true := hwarniff.mpr hwarn
      have hmiss : ZeroLogger.logMissingLoggerWarning st g =
          { st with
            sink := st.sink ++
              [⟨levelFieldText Level.warn, missingLoggerMessage, []⟩] } := by
        simp [ZeroLogger.logMissingLoggerWarning, hgl, hw]
      rw [hmiss]
      have hgl2 : ({ st with
          sink := st.sink ++
            [⟨levelFieldText Level.warn, missingLoggerMessage, []⟩] } :
          LogState).handles[g]? = some cur := hgl
      have hgate : eventNonNil cur lvl = true := (eventNonNil_iff cur lvl hl).mpr hle
      simp [ZeroLogger.writeArgs, hgl2, hgate, hflat, hwarn, levelFieldText]
    · have hw : eventNonNil cur Level.warn = false := by
        cases hgb : eventNonNil cur Level.warn
        · rfl
        · exact absurd (hwarniff.mp hgb) hwarn
      have hmiss : ZeroLogger.logMissingLoggerWarning st g = st := by
        simp [ZeroLogger.logMissingLoggerWarning, hgl, hw]
      rw [hmiss]
      have hgate : eventNonNil cur lvl = true := (eventNonNil_iff cur lvl hl).mpr hle
      simp [ZeroLogger.writeArgs, hgl, hgate, hflat, hwarn, levelFieldText]

/-- C2 witness: with a fallback handle at debug, an info dispatch
through an empty carrier emits the WARN warning record first, then the
requested record; the derived carrier resolves directly. -/
theorem c2_dispatch_resolution_witness :
    (withLogger ⟨[.debug], some 0, true, []⟩ none
        (fun s hh cc => ZeroLogger.writeArgs s hh cc .info [.str "hi"])).sink =
      [] ++
        (if Level.debug.code ≤ Level.warn.code then
          [⟨levelFieldText Level.warn, missingLoggerMessage, []⟩]
        else ([] : List Record)) ++
        [⟨stringToUpper (Level.string .info), renderArgs [.str "hi"],
          eventFieldPairs (flattenedFieldsFromContext
            (some ((none : Option Ctx).getD Ctx.background)))⟩] :=
  (c2_dispatch_resolution ⟨[.debug], some 0, true, []⟩ none
      (fun s hh cc => ZeroLogger.writeArgs s hh cc .info [.str "hi"]) 0 0
      .debug .info [.str "hi"]).2.2.2 rfl rfl rfl (by decide) (by decide)

/-- C5: package_funcs.go's SetLogLevel wrapper has no error result, so
the invalid-level error the handle reports is discarded.  At the
failing input: parsing bogus fails with the invalid-level error; the
handle's own SetLogLevel surfaces that error and leaves the state
unchanged; the package-level wrapper returns only the unchanged state
(no error reaches its caller, contradicting the README and the
loglevel example, which check its error result); the level observed
afterwards is unchanged. -/
theorem c5_setLogLevel_error_swallowed :
    parseLevel "bogus" = .error (.invalidLevel "bogus") ∧
    ZeroLogger.SetLogLevel ⟨[.info], some 0, true, []⟩ 0 "bogus" =
      (⟨[.info], some 0, true, []⟩, some (.invalidLevel "bogus")) ∧
    SetLogLevel ⟨[.info], some 0, true, []⟩ none "bogus" =
      ⟨[.info], some 0, true, []⟩ ∧
    GetLogLevel ⟨[.info], some 0, true, []⟩ none = "info" := by decide

/-- C6: initialization idempotence and failure atomicity.  Once the
process-wide handle exists, every New call attaches that same handle to
the (possibly nil) parent carrier and succeeds, whatever the level text
says; with no process-wide handle and unparsable level text, New
returns the parse error and leaves the state, including the empty
process-wide slot, untouched. -/
theorem c6_init_idempotent_and_atomic (st : LogState) (ctx : Option Ctx)
    (level : String) (g : Nat) (e : GoError) :
    (st.global = some g →
      New st ctx level =
        (st, { ctx.getD Ctx.background with logger := some g }, none)) ∧
    (st.global = none → parseLevel level = .error e →
      New st ctx level = (st, ctx.getD Ctx.background, some e)) := by
  constructor
  · intro hg
    simp [New, hg]
  · intro hg he
    simp [New, hg, he]

/-- C6 witness: with the handle already stored, New succeeds on
unparsable text and attaches the same handle; on a fresh state the same
text fails with the invalid-level error and creates nothing. -/
theorem c6_init_idempotent_and_atomic_witness :
    New ⟨[.info], some 0, true, []⟩ none "bogus" =
      (⟨[.info], some 0, true, []⟩,
        { Ctx.background with logger := some 0 }, none) ∧
    New ⟨[], none, false, []⟩ none "bogus" =
      (⟨[], none, false, []⟩, Ctx.background, some (.invalidLevel "bogus")) :=
  ⟨(c6_init_idempotent_and_atomic ⟨[.info], some 0, true, []⟩ none "bogus" 0
      (.invalidLevel "bogus")).1 rfl,
   (c6_init_idempotent_and_atomic ⟨[], none, false, []⟩ none "bogus" 0
      (.invalidLevel "bogus")).2 rfl (by decide)⟩

end Sugarzero

namespace Sugarzero

theorem renderArgs_single (a : GoVal) : renderArgs [a] = goVDefault a := by
  show goSprintf "%v" [a] = goVDefault a
  show sprintfAux ('%' :: 'v' :: []) [a] = goVDefault a
  simp [sprintfAux]

theorem fieldPairsAux_append (l₁ l₂ : List GoVal) (h : l₁.length % 2 = 0) :
    fieldPairsAux (l₁ ++ l₂) = fieldPairsAux l₁ ++ fieldPairsAux l₂ := by
  induction l₁ using twoStepInduction with
  | h0 => simp [fieldPairsAux]
  | h1 a => simp at h
  | h2 a b l ih =>
    have hl : l.length % 2 = 0 := by
      simp [List.length_cons] at h
      omega
    cases a with
    | str s => simp [fieldPairsAux, ih hl]
    | int n => simp [fieldPairsAux, ih hl]
    | boolean bo => simp [fieldPairsAux, ih hl]
    | null => simp [fieldPairsAux, ih hl]

/-- C8 counterexample: Infoln does not insert separators.  At debug
level, Infoln with the two string arguments Request and completed
renders the message Requestcompleted, not the space-separated form the
claim requires of the ln variants. -/
theorem c8_counterexample :
    (ZeroLogger.Infoln ⟨[.debug], some 0, true, []⟩ 0 (some Ctx.background)
        [.str "Request", .str "completed"]).sink =
      [⟨"INFO", "Requestcompleted", []⟩] ∧
    "Requestcompleted" ≠ "Request completed" := by decide

/-- C8 amended: message rendering.  A single argument renders via its
default text representation; multiple arguments join as a generic
print join (a separating space only between two adjacent operands
neither of which is a string); the ln-suffixed variants are identical
to the plain args variants rather than always inserting separators;
the formatted variants apply printf-style substitution of the format
string against the arguments. -/
theorem c8_message_rendering (st : LogState) (h : Nat) (cur : Level)
    (ctx : Option Ctx) (args : List GoVal) (a b : GoVal) (rest : List GoVal)
    (format : String)
    (hh : st.handles[h]? = some cur) (hgate : cur.code ≤ Level.info.code) :
    renderArgs [a] = goVDefault a ∧
    goSprint (a :: b :: rest) =
      goVDefault a ++ (if a.isStr || b.isStr then "" else " ") ++
        goSprint (b :: rest) ∧
    ZeroLogger.Debugln st h ctx args = ZeroLogger.Debug st h ctx args ∧
    ZeroLogger.Infoln st h ctx args = ZeroLogger.Info st h ctx args ∧
    ZeroLogger.Warnln st h ctx args = ZeroLogger.Warn st h ctx args ∧
    ZeroLogger.Errorln st h ctx args = ZeroLogger.Error st h ctx args ∧
    ZeroLogger.Fatalln st h ctx args = ZeroLogger.Fatal st h ctx args ∧
    (ZeroLogger.Info st h ctx (a :: b :: rest)).sink =
      st.sink ++
        [⟨"INFO", goSprint (a :: b :: rest),
          eventFieldPairs (flattenedFieldsFromContext ctx)⟩] ∧
    (ZeroLogger.Infof st h ctx format args).sink =
      st.sink ++
        [⟨"INFO", goSprintf format args,
          eventFieldPairs (flattenedFieldsFromContext ctx)⟩] := by
  have hg : eventNonNil cur Level.info = true :=
    (eventNonNil_iff cur Level.info (by simp)).mpr hgate
  have hup : levelFieldText Level.info = "INFO" := by decide
  refine ⟨renderArgs_single a, rfl, rfl, rfl, rfl, rfl, rfl, ?_, ?_⟩
  · have hr : renderArgs (a :: b :: rest) = goSprint (a :: b :: rest) := rfl
    simp [ZeroLogger.Info, ZeroLogger.writeArgs, hh, hg, hup, hr]
  · simp [ZeroLogger.Infof, ZeroLogger.writef, hh, hg, hup]

/-- C8 witness: the amended rendering at concrete inputs. -/
theorem c8_message_rendering_witness :
    renderArgs [GoVal.int 1] = goVDefault (GoVal.int 1) ∧
    (ZeroLogger.Info ⟨[.debug], some 0, true, []⟩ 0 (some Ctx.background)
        (GoVal.int 1 :: GoVal.int 2 :: [])).sink =
      [] ++
        [⟨"INFO", goSprint (GoVal.int 1 :: GoVal.int 2 :: []),
          eventFieldPairs (flattenedFieldsFromContext (some Ctx.background))⟩] :=
  ⟨(c8_message_rendering ⟨[.debug], some 0, true, []⟩ 0 .debug
      (some Ctx.background) [] (GoVal.int 1) (GoVal.int 2) [] "" rfl
      (by decide)).1,
   (c8_message_rendering ⟨[.debug], some 0, true, []⟩ 0 .debug
      (some Ctx.background) [] (GoVal.int 1) (GoVal.int 2) [] "" rfl
      (by decide)).2.2.2.2.2.2.2.1⟩

end Sugarzero

namespace Sugarzero

/-- C9: the tracing bridge (modelled from the spec, since the
WithTracing source file is not under src).  With a present and
recording span, WithTracing appends trace_id and span_id to the
accumulator and a subsequent write's record carries both identifiers
(last-write-wins); with no span, or a non-recording span, the carrier
is returned unchanged, and a subsequent write's record (for a carrier
whose fields carry neither key) contains neither key. -/
theorem c9_tracing_bridge (c : Ctx) (sp : Span) (st : LogState) (h : Nat)
    (cur lvl : Level) (args : List GoVal)
    (heven : (flattenedFieldsFromContext (some c)).length % 2 = 0)
    (hl : lvl = .debug ∨ lvl = .info ∨ lvl = .warn ∨ lvl = .error ∨ lvl = .fatal)
    (hgl : st.handles[h]? = some cur) (hgate : cur.code ≤ lvl.code) :
    (c.span = some sp → sp.recording = true →
      WithTracing (some c) =
        some (WithFields (some c)
          [.str "trace_id", .str sp.traceId, .str "span_id", .str sp.spanId]) ∧
      (ZeroLogger.writeArgs st h (WithTracing (some c)) lvl args).sink =
        st.sink ++
          [⟨stringToUpper (Level.string lvl), renderArgs args,
            eventFieldPairs (flattenedFieldsFromContext (WithTracing (some c)))⟩] ∧
      Record.fieldValue
          ⟨stringToUpper (Level.string lvl), renderArgs args,
            eventFieldPairs (flattenedFieldsFromContext (WithTracing (some c)))⟩
          "trace_id" = some (.str sp.traceId) ∧
      Record.fieldValue
          ⟨stringToUpper (Level.string lvl), renderArgs args,
            eventFieldPairs (flattenedFieldsFromContext (WithTracing (some c)))⟩
          "span_id" = some (.str sp.spanId)) ∧
    (c.span = none → WithTracing (some c) = some c) ∧
    (c.span = some sp → sp.recording = false → WithTracing (some c) = some c) ∧
    ((∀ p ∈ eventFieldPairs (flattenedFieldsFromContext (some c)),
        p.1 ≠ "trace_id" ∧ p.1 ≠ "span_id") →
      (ZeroLogger.writeArgs st h (some c) lvl args).sink =
        st.sink ++
          [⟨stringToUpper (Level.string lvl), renderArgs args,
            eventFieldPairs (flattenedFieldsFromContext (some c))⟩] ∧
      Record.fieldValue
          ⟨stringToUpper (Level.string lvl), renderArgs args,
            eventFieldPairs (flattenedFieldsFromContext (some c))⟩
          "trace_id" = none ∧
      Record.fieldValue
          ⟨stringToUpper (Level.string lvl), renderArgs args,
            eventFieldPairs (flattenedFieldsFromContext (some c))⟩
          "span_id" = none) := by
  have hg : eventNonNil cur lvl = true := (eventNonNil_iff cur lvl hl).mpr hgate
  refine ⟨?_, ?_, ?_, ?_⟩
  · intro hspan hrec
    have hwt : WithTracing (some c) =
        some (WithFields (some c)
          [.str "trace_id", .str sp.traceId, .str "span_id", .str sp.spanId]) := by
      simp [WithTracing, hspan, hrec]
    have hflat2 : flattenedFieldsFromContext (WithTracing (some c)) =
        flattenedFieldsFromContext (some c) ++
          [.str "trace_id", .str sp.traceId, .str "span_id", .str sp.spanId] := by
      rw [hwt, withFields_flattened]
      congr 1
      rw [oddAdjust, if_neg (by simp)]
      simp [keptPairs]
    have hpairs :
        eventFieldPairs (flattenedFieldsFromContext (WithTracing (some c))) =
          fieldPairsAux (flattenedFieldsFromContext (some c)) ++
            [("trace_id", GoVal.str sp.traceId),
              ("span_id", GoVal.str sp.spanId)] := by
      rw [hflat2, eventFieldPairs, oddAdjust_append_even _ _ heven]
      rw [(by rw [oddAdjust, if_neg (by simp)] :
        oddAdjust [.str "trace_id", .str sp.traceId, .str "span_id",
          .str sp.spanId] =
          [GoVal.str "trace_id", .str sp.traceId, .str "span_id",
            .str sp.spanId])]
      rw [fieldPairsAux_append _ _ heven]
      simp [fieldPairsAux]
    refine ⟨hwt, ?_, ?_, ?_⟩
    · simp [ZeroLogger.writeArgs, hgl, hg, levelFieldText]
    · simp [Record.fieldValue, hpairs, List.find?]
    · simp [Record.fieldValue, hpairs, List.find?]
  · intro hspan
    simp [WithTracing, hspan]
  · intro hspan hrec
    simp [WithTracing, hspan, hrec]
  · intro hkeys
    refine ⟨?_, ?_, ?_⟩
    · simp [ZeroLogger.writeArgs, hgl, hg, levelFieldText]
    · simp only [Record.fieldValue]
      have hn : (eventFieldPairs
          (flattenedFieldsFromContext (some c))).reverse.find?
          (fun p => p.1 == "trace_id") = none := by
        refine List.find?_eq_none.mpr ?_
        intro p hp
        have := hkeys p (List.mem_reverse.mp hp)
        simp [this.1]
      rw [hn]
      rfl
    · simp only [Record.fieldValue]
      have hn : (eventFieldPairs
          (flattenedFieldsFromContext (some c))).reverse.find?
          (fun p => p.1 == "span_id") = none := by
        refine List.find?_eq_none.mpr ?_
        intro p hp
        have := hkeys p (List.mem_reverse.mp hp)
        simp [this.2]
      rw [hn]
      rfl

/-- C9 witness: a recording span with identifiers T and S makes a
subsequent info write carry trace_id T and span_id S; a span-free
carrier is returned unchanged. -/
theorem c9_tracing_bridge_witness :
    WithTracing (some (⟨none, some [.str "env", .str "demo"],
        some ⟨true, "T", "S"⟩⟩ : Ctx)) =
      some (WithFields (some (⟨none, some [.str "env", .str "demo"],
        some ⟨true, "T", "S"⟩⟩ : Ctx))
        [.str "trace_id", .str "T", .str "span_id", .str "S"]) ∧
    Record.fieldValue
        ⟨stringToUpper (Level.string .info), renderArgs [.str "m"],
          eventFieldPairs (flattenedFieldsFromContext
            (WithTracing (some (⟨none, some [.str "env", .str "demo"],
              some ⟨true, "T", "S"⟩⟩ : Ctx))))⟩
        "trace_id" = some (.str "T") ∧
    WithTracing (some Ctx.background) = some Ctx.background :=
  ⟨((c9_tracing_bridge ⟨none, some [.str "env", .str "demo"],
        some ⟨true, "T", "S"⟩⟩ ⟨true, "T", "S"⟩ ⟨[.debug], some 0, true, []⟩ 0
        .debug .info [.str "m"] (by decide) (by decide) rfl (by decide)).1
      rfl rfl).1,
   ((c9_tracing_bridge ⟨none, some [.str "env", .str "demo"],
        some ⟨true, "T", "S"⟩⟩ ⟨true, "T", "S"⟩ ⟨[.debug], some 0, true, []⟩ 0
        .debug .info [.str "m"] (by decide) (by decide) rfl (by decide)).1
      rfl rfl).2.2.1,
   (c9_tracing_bridge Ctx.background ⟨true, "T", "S"⟩
      ⟨[.debug], some 0, true, []⟩ 0 .debug .info [.str "m"] (by decide)
      (by decide) rfl (by decide)).2.1 rfl⟩

/-- C10: nil-carrier totality.  WithFields on a nil carrier behaves as
on a fresh empty carrier; WithField does too (observably so for the
empty-key no-op, which hands back the nil carrier itself); New attaches
the handle to a fresh empty carrier; and every package-level dispatch
on a nil carrier resolves exactly as on a fresh empty carrier: through
the process-wide fallback when one exists, and as a silent no-op when
none does. -/
theorem c10_nil_carrier_totality (st : LogState) (keyvals : List GoVal)
    (key : String) (v : GoVal) (level : String) (g : Nat)
    (fn : LogState → Nat → Option Ctx → LogState) :
    WithFields none keyvals = WithFields (some Ctx.background) keyvals ∧
    (key ≠ "" → WithField none key v = WithField (some Ctx.background) key v) ∧
    FieldsFromContext (WithField none "" v) =
      FieldsFromContext (WithField (some Ctx.background) "" v) ∧
    New st none level = New st (some Ctx.background) level ∧
    withLogger st none fn = withLogger st (some Ctx.background) fn ∧
    (st.global = some g →
      withLogger st none fn =
        fn (ZeroLogger.logMissingLoggerWarning st g) g
          (some { Ctx.background with logger := some g })) ∧
    (st.global = none → withLogger st none fn = st) := by
  refine ⟨rfl, ?_, rfl, rfl, rfl, ?_, ?_⟩
  · intro hk
    rw [WithField, WithField, if_neg hk, if_neg hk]
    rfl
  · intro hg
    simp [withLogger, hg, Ctx.background]
  · intro hg
    simp [withLogger, hg, Ctx.background]

/-- C10 witness: the nil-carrier behaviors at concrete inputs,
including fallback resolution and the silent drop. -/
theorem c10_nil_carrier_totality_witness :
    WithField none "x" (GoVal.int 1) =
      WithField (some Ctx.background) "x" (GoVal.int 1) ∧
    withLogger ⟨[.debug], some 0, true, []⟩ none
        (fun s hh cc => ZeroLogger.writeArgs s hh cc .info [.str "m"]) =
      ZeroLogger.writeArgs
        (ZeroLogger.logMissingLoggerWarning ⟨[.debug], some 0, true, []⟩ 0) 0
        (some { Ctx.background with logger := some 0 }) .info [.str "m"] ∧
    withLogger ⟨[.debug], none, true, []⟩ none
        (fun s hh cc => ZeroLogger.writeArgs s hh cc .info [.str "m"]) =
      ⟨[.debug], none, true, []⟩ :=
  ⟨(c10_nil_carrier_totality ⟨[.debug], some 0, true, []⟩ [] "x" (GoVal.int 1)
      "" 0 (fun s hh cc => ZeroLogger.writeArgs s hh cc .info [.str "m"])).2.1
      (by decide),
   (c10_nil_carrier_totality ⟨[.debug], some 0, true, []⟩ [] "x" (GoVal.int 1)
      "" 0
      (fun s hh cc => ZeroLogger.writeArgs s hh cc .info [.str "m"])).2.2.2.2.2.1
      rfl,
   (c10_nil_carrier_totality ⟨[.debug], none, true, []⟩ [] "x" (GoVal.int 1)
      "" 0
      (fun s hh cc => ZeroLogger.writeArgs s hh cc .info [.str "m"])).2.2.2.2.2.2
      rfl⟩

end Sugarzero
